import Mathlib

/-!
Verification development for the docbot voice-compliance bot
(`src/docbot.py`).

Shallow embedding: Python dictionaries become association lists
(`List (Nat × _)`) with dict semantics (assignment overwrites the first
matching key or appends a fresh one at the end; `del` removes the key;
lookup returns the first match).  Discord snowflake identifiers are
modelled as `Nat` (the `str(...)` conversion applied to guild ids in the
source is injective, so nothing is lost by keying on the numeric id).
External gateway calls (mute, unmute, message send/delete, move-to-None)
are recorded in an emitted command trace; a call that the source fires
and whose failure is merely logged still appears in the trace.  Whether
a warning-message send succeeds is an oracle boolean `sendOk` supplied
with each notification (on failure the source catches the HTTP error and
stores nothing).  Message references and timer handles are allocated
from a fresh-id counter carried in the engine state.
-/

/-- One voice state as seen by `on_voice_state_update`: the channel the
member is in (`none` = not connected), `self_video`, and server `mute`. -/
structure VoiceState where
  channelId : Option Nat
  selfVideo : Bool
  mute : Bool
  deriving DecidableEq, Repr

/-- The member data the handler reads: id, guild id, and the bot flag. -/
structure MemberInfo where
  id : Nat
  guildId : Nat
  isBot : Bool
  deriving DecidableEq, Repr

/-- Per-guild configuration: `voice_channels` list and optional
`text_channel_id` (absent keys are modelled by the defaults `[]` and
`none`, exactly the defaults `.get` supplies in the source). -/
structure GuildConfig where
  voiceChannels : List Nat
  textChannelId : Option Nat
  deriving DecidableEq, Repr

/-- `config['guilds']` : guild id ↦ guild configuration. -/
abbrev Config := List (Nat × GuildConfig)

/-- A warned-participant entry: the warning message reference and the
handle of the scheduled kick task
(`{"warning_msg": ..., "timer": ...}`). -/
structure Entry where
  warningMsg : Nat
  timer : Nat
  deriving DecidableEq, Repr

/-- `guild_warnings` : guild id ↦ (member id ↦ entry). -/
abbrev GW := List (Nat × List (Nat × Entry))

/-- A gateway command issued by the engine. -/
inductive Cmd where
  | mute (memberId : Nat)
  | unmute (memberId : Nat)
  | sendMessage (channelId memberId : Nat)
  | deleteMessage (msgRef : Nat)
  | moveToNone (memberId : Nat)
  deriving DecidableEq, Repr

/-- The mutable state of the engine: the `guild_warnings` registry, the
set of cancelled timer handles, the set of scheduled timer handles, and
a fresh-id counter for message references / timer handles. -/
structure EngineState where
  guildWarnings : GW
  cancelled : List Nat
  scheduled : List Nat
  nextId : Nat
  deriving DecidableEq, Repr

/-- First-match association lookup (`d[k]` / `k in d`). -/
def alookup {β : Type} (k : Nat) : List (Nat × β) → Option β
  | [] => none
  | p :: ps => if p.1 = k then some p.2 else alookup k ps

/-- Dict assignment `d[k] = v`: overwrite the first matching key, else
append at the end (Python dicts preserve insertion order). -/
def setPair {β : Type} (k : Nat) (v : β) : List (Nat × β) → List (Nat × β)
  | [] => [(k, v)]
  | p :: ps => if p.1 = k then (k, v) :: ps else p :: setPair k v ps

/-- Dict deletion `del d[k]` (removes every pair with key `k`; identical
to Python on the duplicate-free lists dicts produce). -/
def erasePair {β : Type} (k : Nat) : List (Nat × β) → List (Nat × β)
  | [] => []
  | p :: ps => if p.1 = k then erasePair k ps else p :: erasePair k ps

/-- `guild_warnings[g][m]` as an option. -/
def getEntry (gw : GW) (g m : Nat) : Option Entry :=
  (alookup g gw).bind (alookup m)

/-- `g in guild_warnings and m in guild_warnings[g]`. -/
def hasEntry (gw : GW) (g m : Nat) : Bool :=
  (getEntry gw g m).isSome

/-- `guild_warnings[g][m] = e` (no-op when the guild partition is
absent, where the source would raise a swallowed-upstream `KeyError`
and likewise store nothing; the handler always ensures the partition
first). -/
def putEntry (g m : Nat) (e : Entry) : GW → GW
  | [] => []
  | p :: ps => if p.1 = g then (g, setPair m e p.2) :: ps else p :: putEntry g m e ps

/-- `del guild_warnings[g][m]`. -/
def removeEntry (g m : Nat) : GW → GW
  | [] => []
  | p :: ps => if p.1 = g then (g, erasePair m p.2) :: ps else p :: removeEntry g m ps

/-- `if guild_id_str not in guild_warnings: guild_warnings[guild_id_str] = {}`. -/
def ensureGuild (g : Nat) (st : EngineState) : EngineState :=
  if (alookup g st.guildWarnings).isSome then st
  else { st with guildWarnings := st.guildWarnings ++ [(g, [])] }

/-- `is_monitored_channel = lambda channel: channel and channel.id in voice_channels`. -/
def isMonitored (vcs : List Nat) : Option Nat → Bool
  | none => false
  | some c => vcs.contains c

/-- `send_warning(member, text_channel, guild_id_str)`.  Returns early
when the member is already warned; otherwise sends the warning message
(its issuance is always recorded) and, when the send succeeds
(`sendOk`), stores a fresh entry and schedules the kick timer.  On send
failure the `except` branch stores nothing. -/
def send_warning (sendOk : Bool) (tcid memId g : Nat) (st : EngineState) :
    EngineState × List Cmd :=
  if hasEntry st.guildWarnings g memId then (st, [])
  else if sendOk then
    ({ guildWarnings := putEntry g memId ⟨st.nextId, st.nextId + 1⟩ st.guildWarnings,
       cancelled := st.cancelled,
       scheduled := st.scheduled ++ [st.nextId + 1],
       nextId := st.nextId + 2 },
     [Cmd.sendMessage tcid memId])
  else (st, [Cmd.sendMessage tcid memId])

/-- `cancel_warning(member, guild_id_str)`: no-op without an entry;
otherwise cancel the timer, best-effort delete the stored warning
message, and delete the entry. -/
def cancel_warning (memId g : Nat) (st : EngineState) : EngineState × List Cmd :=
  match getEntry st.guildWarnings g memId with
  | none => (st, [])
  | some e =>
      ({ st with
           guildWarnings := removeEntry g memId st.guildWarnings,
           cancelled := st.cancelled ++ [e.timer] },
       [Cmd.deleteMessage e.warningMsg])

/-- The body of `kick_after_delay(member, warning_msg, guild_id_str)`
after the 120 s sleep.  `currentVoice` is the member's voice channel at
fire time (`member.voice`, `none` when disconnected); `cfg` is the
configuration at fire time.  If the entry is gone, nothing happens.  If
the guild has meanwhile vanished from the configuration, the `KeyError`
is swallowed by the surrounding blanket `except` and nothing happens.
Otherwise one move-to-None is issued per monitored channel the member
currently occupies, the captured warning message is best-effort deleted,
and the entry is removed. -/
def kick_after_delay (cfg : Config) (currentVoice : Option Nat)
    (memId g warningMsg : Nat) (st : EngineState) : EngineState × List Cmd :=
  if hasEntry st.guildWarnings g memId then
    match alookup g cfg with
    | none => (st, [])
    | some gc =>
        let kicks := gc.voiceChannels.filterMap
          (fun cid => if currentVoice = some cid then some (Cmd.moveToNone memId) else none)
        ({ st with guildWarnings := removeEntry g memId st.guildWarnings },
         kicks ++ [Cmd.deleteMessage warningMsg])
  else (st, [])

/-- The `--- Join designated voice channel --- / --- Leave ... ---`
`if`/`elif` block of the handler.  The truthiness test `member.voice` is
modelled as `after.channelId.isSome` (the member object already reflects
the post-update state). -/
def joinLeaveBlock (vcs : List Nat) (tcid : Nat) (sendOk : Bool) (memId g : Nat)
    (before after : VoiceState) (st0 : EngineState) : EngineState × List Cmd :=
  if isMonitored vcs after.channelId then
    let mcs := if after.channelId.isSome && !after.mute then [Cmd.mute memId] else []
    if !after.selfVideo then
      let r := send_warning sendOk tcid memId g st0
      (r.1, mcs ++ r.2)
    else (st0, mcs)
  else if isMonitored vcs before.channelId && !isMonitored vcs after.channelId then
    cancel_warning memId g st0
  else (st0, [])

/-- The `--- Turn camera on in designated channel ---` block. -/
def camOnBlock (vcs : List Nat) (memId g : Nat) (before after : VoiceState)
    (st1 : EngineState) : EngineState × List Cmd :=
  if isMonitored vcs before.channelId && !before.selfVideo && after.selfVideo then
    if hasEntry st1.guildWarnings g memId then
      let rc := cancel_warning memId g st1
      (rc.1, rc.2 ++ (if after.channelId.isSome then [Cmd.unmute memId] else []))
    else (st1, [])
  else (st1, [])

/-- The `--- Turn camera off in designated channel ---` block. -/
def camOffBlock (vcs : List Nat) (tcid : Nat) (sendOk : Bool) (memId g : Nat)
    (before after : VoiceState) (st2 : EngineState) : EngineState × List Cmd :=
  if isMonitored vcs before.channelId && before.selfVideo && !after.selfVideo then
    send_warning sendOk tcid memId g st2
  else (st2, [])

/-- The three rule blocks run in source order, threading the state and
concatenating the command traces. -/
def rulesBody (vcs : List Nat) (tcid : Nat) (sendOk : Bool) (memId g : Nat)
    (before after : VoiceState) (st0 : EngineState) : EngineState × List Cmd :=
  let r1 := joinLeaveBlock vcs tcid sendOk memId g before after st0
  let r2 := camOnBlock vcs memId g before after r1.1
  let r3 := camOffBlock vcs tcid sendOk memId g before after r2.1
  (r3.1, r1.2 ++ r2.2 ++ r3.2)

/-- `on_voice_state_update(member, before, after)`: guards (unconfigured
guild, bot, no monitored channels, no text channel), the registry
partition ensure, then the rule blocks.  The resolved text channel is
passed to `send_warning` by id; a failing send is covered by
`sendOk = false`. -/
def on_voice_state_update (cfg : Config) (sendOk : Bool) (mem : MemberInfo)
    (before after : VoiceState) (st : EngineState) : EngineState × List Cmd :=
  match alookup mem.guildId cfg with
  | none => (st, [])
  | some gc =>
    if mem.isBot then (st, []) else
    let st0 := ensureGuild mem.guildId st
    match gc.textChannelId with
    | none => (st0, [])
    | some tcid =>
    if gc.voiceChannels = [] then (st0, []) else
    rulesBody gc.voiceChannels tcid sendOk mem.id mem.guildId before after st0

/-- A notification together with the send-success oracle for any warning
message it triggers. -/
structure Notif where
  mem : MemberInfo
  before : VoiceState
  after : VoiceState
  sendOk : Bool
  deriving DecidableEq, Repr

/-- Processing of a sequence of notifications (one guild stream is
processed in arrival order). -/
def processTrace (cfg : Config) : List Notif → EngineState → EngineState × List Cmd
  | [], st => (st, [])
  | n :: ns, st =>
      let r1 := on_voice_state_update cfg n.sendOk n.mem n.before n.after st
      let r2 := processTrace cfg ns r1.1
      (r2.1, r1.2 ++ r2.2)

/-- Status responses of the admin commands. -/
inductive Resp where
  | alreadyMonitored
  | addedChan
  | notMonitored
  | removedChan
  deriving DecidableEq, Repr

/-- Map-update of one guild's configuration. -/
def updateGuildCfg (g : Nat) (f : GuildConfig → GuildConfig) : Config → Config
  | [] => []
  | p :: ps => if p.1 = g then (g, f p.2) :: ps else p :: updateGuildCfg g f ps

/-- The monitored voice-channel list of a guild (`.get('voice_channels', [])`). -/
def vcsOf (cfg : Config) (g : Nat) : List Nat :=
  ((alookup g cfg).map GuildConfig.voiceChannels).getD []

/-- `!addvoicechannel`: ensure the guild entry and its list exist, then
either report the id as already monitored (no mutation, no save) or
append it and persist.  The third component records whether
`save_config()` ran. -/
def addvoicechannel (cfg : Config) (g cid : Nat) : Config × Resp × Bool :=
  let cfg1 := if (alookup g cfg).isSome then cfg else cfg ++ [(g, ⟨[], none⟩)]
  if (vcsOf cfg1 g).contains cid then (cfg1, Resp.alreadyMonitored, false)
  else (updateGuildCfg g (fun gc => { gc with voiceChannels := gc.voiceChannels ++ [cid] }) cfg1,
        Resp.addedChan, true)

/-- `!removevoicechannel`: report not-monitored (no mutation, no save)
when the guild or the id is absent, else `list.remove` the first
occurrence and persist. -/
def removevoicechannel (cfg : Config) (g cid : Nat) : Config × Resp × Bool :=
  if (vcsOf cfg g).contains cid then
    (updateGuildCfg g (fun gc => { gc with voiceChannels := gc.voiceChannels.erase cid }) cfg,
     Resp.removedChan, true)
  else (cfg, Resp.notMonitored, false)

/-- Well-formed warning partition: member keys are duplicate-free (true
of every Python dict). -/
def WFpart (part : List (Nat × Entry)) : Prop :=
  (part.map Prod.fst).Nodup

/-- Well-formed registry: guild keys duplicate-free and every partition
well-formed. -/
def WFgw (gw : GW) : Prop :=
  (gw.map Prod.fst).Nodup ∧ ∀ p ∈ gw, WFpart p.2

/-- Well-formed engine state. -/
def WFstate (st : EngineState) : Prop :=
  WFgw st.guildWarnings

/-- Number of warned-participant entries stored for the pair `(g, m)`,
counted across the whole registry structure. -/
def entryCount (gw : GW) (g m : Nat) : Nat :=
  (gw.map (fun p => if p.1 = g then p.2.countP (fun q => q.1 = m) else 0)).sum

/-- Duplicate-free configuration: guild keys and every monitored list. -/
def CfgWF (cfg : Config) : Prop :=
  (cfg.map Prod.fst).Nodup ∧ ∀ p ∈ cfg, p.2.voiceChannels.Nodup

theorem alookup_append_none {β : Type} {k : Nat} {l1 l2 : List (Nat × β)}
    (h : alookup k l1 = none) : alookup k (l1 ++ l2) = alookup k l2 := by
  induction l1 with
  | nil => rfl
  | cons p ps ih =>
    by_cases hp : p.1 = k
    · simp [alookup, hp] at h
    · simp only [List.cons_append, alookup, if_neg hp] at h ⊢
      exact ih h

theorem alookup_append_some {β : Type} {k : Nat} {v : β} {l1 l2 : List (Nat × β)}
    (h : alookup k l1 = some v) : alookup k (l1 ++ l2) = some v := by
  induction l1 with
  | nil => simp [alookup] at h
  | cons p ps ih =>
    by_cases hp : p.1 = k
    · simp only [alookup, if_pos hp] at h ⊢
      exact h
    · simp only [List.cons_append, alookup, if_neg hp] at h ⊢
      exact ih h

theorem alookup_eq_none {β : Type} {k : Nat} {l : List (Nat × β)} :
    alookup k l = none ↔ k ∉ l.map Prod.fst := by
  induction l with
  | nil => simp [alookup]
  | cons p ps ih =>
    by_cases hp : p.1 = k
    · subst hp
      simp [alookup]
    · simp [alookup, hp, ih, Ne.symm hp]

theorem alookup_setPair_self {β : Type} (k : Nat) (v : β) (l : List (Nat × β)) :
    alookup k (setPair k v l) = some v := by
  induction l with
  | nil => simp [setPair, alookup]
  | cons p ps ih =>
    by_cases hp : p.1 = k
    · simp [setPair, hp, alookup]
    · simp [setPair, hp, alookup, ih]

theorem mem_keys_setPair {β : Type} {a k : Nat} {v : β} {l : List (Nat × β)}
    (h : a ∈ (setPair k v l).map Prod.fst) : a = k ∨ a ∈ l.map Prod.fst := by
  induction l with
  | nil => simpa [setPair] using h
  | cons p ps ih =>
    by_cases hp : p.1 = k
    · simp only [setPair, if_pos hp, List.map_cons, List.mem_cons] at h
      rcases h with h | h
      · exact Or.inl h
      · exact Or.inr (by simp [h])
    · simp only [setPair, if_neg hp, List.map_cons, List.mem_cons] at h
      rcases h with h | h
      · exact Or.inr (by simp [h])
      · rcases ih h with h1 | h1
        · exact Or.inl h1
        · exact Or.inr (by simp [h1])

theorem nodup_keys_setPair {β : Type} {k : Nat} {v : β} {l : List (Nat × β)}
    (h : (l.map Prod.fst).Nodup) : ((setPair k v l).map Prod.fst).Nodup := by
  induction l with
  | nil => simp [setPair]
  | cons p ps ih =>
    by_cases hp : p.1 = k
    · simp only [setPair, if_pos hp, List.map_cons]
      rw [← hp]
      simpa using h
    · simp only [setPair, if_neg hp, List.map_cons, List.nodup_cons] at h ⊢
      refine ⟨fun hmem => ?_, ih h.2⟩
      rcases mem_keys_setPair hmem with h1 | h1
      · exact hp h1
      · exact h.1 h1

theorem erasePair_sublist {β : Type} (k : Nat) (l : List (Nat × β)) :
    (erasePair k l).Sublist l := by
  induction l with
  | nil => simp [erasePair]
  | cons p ps ih =>
    by_cases hp : p.1 = k
    · simp only [erasePair, if_pos hp]
      exact List.Sublist.cons _ ih
    · simp only [erasePair, if_neg hp]
      exact List.Sublist.cons₂ _ ih

theorem alookup_erasePair_self {β : Type} (k : Nat) (l : List (Nat × β)) :
    alookup k (erasePair k l) = none := by
  induction l with
  | nil => rfl
  | cons p ps ih =>
    by_cases hp : p.1 = k <;> simp [erasePair, hp, alookup, ih]

theorem keys_putEntry (g m : Nat) (e : Entry) (gw : GW) :
    (putEntry g m e gw).map Prod.fst = gw.map Prod.fst := by
  induction gw with
  | nil => rfl
  | cons p ps ih => by_cases hp : p.1 = g <;> simp [putEntry, hp, ih]

theorem keys_removeEntry (g m : Nat) (gw : GW) :
    (removeEntry g m gw).map Prod.fst = gw.map Prod.fst := by
  induction gw with
  | nil => rfl
  | cons p ps ih => by_cases hp : p.1 = g <;> simp [removeEntry, hp, ih]

theorem alookup_putEntry_self {g m : Nat} {e : Entry} {gw : GW} {part : List (Nat × Entry)}
    (h : alookup g gw = some part) :
    alookup g (putEntry g m e gw) = some (setPair m e part) := by
  induction gw with
  | nil => simp [alookup] at h
  | cons p ps ih =>
    by_cases hp : p.1 = g
    · simp only [alookup, if_pos hp, Option.some.injEq] at h
      simp [putEntry, hp, alookup, h]
    · simp only [alookup, putEntry, if_neg hp] at h ⊢
      exact ih h

theorem alookup_removeEntry_self {g m : Nat} {gw : GW} {part : List (Nat × Entry)}
    (h : alookup g gw = some part) :
    alookup g (removeEntry g m gw) = some (erasePair m part) := by
  induction gw with
  | nil => simp [alookup] at h
  | cons p ps ih =>
    by_cases hp : p.1 = g
    · simp only [alookup, if_pos hp, Option.some.injEq] at h
      simp [removeEntry, hp, alookup, h]
    · simp only [alookup, removeEntry, if_neg hp] at h ⊢
      exact ih h

theorem putEntry_of_none {g m : Nat} {e : Entry} {gw : GW}
    (h : alookup g gw = none) : putEntry g m e gw = gw := by
  induction gw with
  | nil => rfl
  | cons p ps ih =>
    by_cases hp : p.1 = g
    · simp [alookup, hp] at h
    · simp only [alookup, if_neg hp] at h
      simp [putEntry, hp, ih h]

theorem removeEntry_of_none {g m : Nat} {gw : GW}
    (h : alookup g gw = none) : removeEntry g m gw = gw := by
  induction gw with
  | nil => rfl
  | cons p ps ih =>
    by_cases hp : p.1 = g
    · simp [alookup, hp] at h
    · simp only [alookup, if_neg hp] at h
      simp [removeEntry, hp, ih h]

theorem getEntry_putEntry_self {g m : Nat} {e : Entry} {gw : GW} {part : List (Nat × Entry)}
    (h : alookup g gw = some part) : getEntry (putEntry g m e gw) g m = some e := by
  simp [getEntry, alookup_putEntry_self h, alookup_setPair_self]

theorem getEntry_removeEntry_self (g m : Nat) (gw : GW) :
    getEntry (removeEntry g m gw) g m = none := by
  cases h : alookup g gw with
  | none => simp [getEntry, removeEntry_of_none h, h]
  | some part => simp [getEntry, alookup_removeEntry_self h, alookup_erasePair_self]

theorem mem_putEntry {g m : Nat} {e : Entry} {gw : GW} {p : Nat × List (Nat × Entry)}
    (hp : p ∈ putEntry g m e gw) :
    p ∈ gw ∨ ∃ q, q ∈ gw ∧ p = (g, setPair m e q.2) := by
  induction gw with
  | nil => simp [putEntry] at hp
  | cons r rs ih =>
    by_cases hr : r.1 = g
    · simp only [putEntry, if_pos hr, List.mem_cons] at hp
      rcases hp with hp | hp
      · exact Or.inr ⟨r, List.mem_cons_self r rs, hp⟩
      · exact Or.inl (List.mem_cons_of_mem _ hp)
    · simp only [putEntry, if_neg hr, List.mem_cons] at hp
      rcases hp with hp | hp
      · exact Or.inl (by simp [hp])
      · rcases ih hp with h | ⟨q, hq, he⟩
        · exact Or.inl (List.mem_cons_of_mem _ h)
        · exact Or.inr ⟨q, List.mem_cons_of_mem _ hq, he⟩

theorem mem_removeEntry {g m : Nat} {gw : GW} {p : Nat × List (Nat × Entry)}
    (hp : p ∈ removeEntry g m gw) :
    p ∈ gw ∨ ∃ q, q ∈ gw ∧ p = (g, erasePair m q.2) := by
  induction gw with
  | nil => simp [removeEntry] at hp
  | cons r rs ih =>
    by_cases hr : r.1 = g
    · simp only [removeEntry, if_pos hr, List.mem_cons] at hp
      rcases hp with hp | hp
      · exact Or.inr ⟨r, List.mem_cons_self r rs, hp⟩
      · exact Or.inl (List.mem_cons_of_mem _ hp)
    · simp only [removeEntry, if_neg hr, List.mem_cons] at hp
      rcases hp with hp | hp
      · exact Or.inl (by simp [hp])
      · rcases ih hp with h | ⟨q, hq, he⟩
        · exact Or.inl (List.mem_cons_of_mem _ h)
        · exact Or.inr ⟨q, List.mem_cons_of_mem _ hq, he⟩

theorem WFgw_putEntry {g m : Nat} {e : Entry} {gw : GW} (h : WFgw gw) :
    WFgw (putEntry g m e gw) := by
  obtain ⟨h1, h2⟩ := h
  constructor
  · rw [keys_putEntry]
    exact h1
  · intro p hp
    rcases mem_putEntry hp with hp | ⟨q, hq, he⟩
    · exact h2 p hp
    · rw [he]
      exact nodup_keys_setPair (h2 q hq)

theorem WFgw_removeEntry {g m : Nat} {gw : GW} (h : WFgw gw) :
    WFgw (removeEntry g m gw) := by
  obtain ⟨h1, h2⟩ := h
  constructor
  · rw [keys_removeEntry]
    exact h1
  · intro p hp
    rcases mem_removeEntry hp with hp | ⟨q, hq, he⟩
    · exact h2 p hp
    · rw [he]
      exact ((erasePair_sublist m q.2).map Prod.fst).nodup (h2 q hq)

theorem WFstate_ensureGuild {g : Nat} {st : EngineState} (h : WFstate st) :
    WFstate (ensureGuild g st) := by
  unfold WFstate ensureGuild at *
  split
  · exact h
  · rename_i hn
    obtain ⟨h1, h2⟩ := h
    have hnone : alookup g st.guildWarnings = none := by
      cases hh : alookup g st.guildWarnings <;> simp [hh] at hn ⊢
    constructor
    · simp only [List.map_append, List.map_cons, List.map_nil]
      rw [List.nodup_append]
      refine ⟨h1, List.nodup_singleton g, ?_⟩
      intro a ha hb
      simp only [List.mem_singleton] at hb
      subst hb
      exact (alookup_eq_none.1 hnone) ha
    · intro p hp
      rcases List.mem_append.1 hp with hp | hp
      · exact h2 p hp
      · simp only [List.mem_singleton] at hp
        subst hp
        simp [WFpart]

theorem getEntry_ensureGuild (g g' m : Nat) (st : EngineState) :
    getEntry (ensureGuild g st).guildWarnings g' m = getEntry st.guildWarnings g' m := by
  unfold ensureGuild
  split
  · rfl
  · rename_i hn
    have hnone : alookup g st.guildWarnings = none := by
      cases hh : alookup g st.guildWarnings <;> simp [hh] at hn ⊢
    cases hg : alookup g' st.guildWarnings with
    | some part => simp [getEntry, alookup_append_some hg, hg]
    | none =>
      by_cases hgg : g = g'
      · subst hgg
        simp [getEntry, alookup_append_none hg, alookup, hg]
      · simp [getEntry, alookup_append_none hg, alookup, hgg, hg]

theorem cancelled_ensureGuild (g : Nat) (st : EngineState) :
    (ensureGuild g st).cancelled = st.cancelled := by
  unfold ensureGuild
  split <;> rfl

theorem scheduled_ensureGuild (g : Nat) (st : EngineState) :
    (ensureGuild g st).scheduled = st.scheduled := by
  unfold ensureGuild
  split <;> rfl

theorem nextId_ensureGuild (g : Nat) (st : EngineState) :
    (ensureGuild g st).nextId = st.nextId := by
  unfold ensureGuild
  split <;> rfl

theorem send_warning_of_hasEntry {sendOk : Bool} {tcid memId g : Nat} {st : EngineState}
    (h : hasEntry st.guildWarnings g memId = true) :
    send_warning sendOk tcid memId g st = (st, []) := by
  simp [send_warning, h]

theorem send_warning_fst_of_fail (tcid memId g : Nat) (st : EngineState) :
    (send_warning false tcid memId g st).1 = st := by
  unfold send_warning
  split
  · rfl
  · simp

theorem send_warning_cmds {sendOk : Bool} {tcid memId g : Nat} {st : EngineState} :
    (send_warning sendOk tcid memId g st).2 = [] ∨
    (send_warning sendOk tcid memId g st).2 = [Cmd.sendMessage tcid memId] := by
  unfold send_warning
  split
  · exact Or.inl rfl
  · split
    · exact Or.inr rfl
    · exact Or.inr rfl

theorem WFstate_send_warning {sendOk : Bool} {tcid memId g : Nat} {st : EngineState}
    (h : WFstate st) : WFstate (send_warning sendOk tcid memId g st).1 := by
  unfold send_warning
  split
  · exact h
  · split
    · exact WFgw_putEntry h
    · exact h

theorem cancel_warning_of_none {memId g : Nat} {st : EngineState}
    (h : getEntry st.guildWarnings g memId = none) :
    cancel_warning memId g st = (st, []) := by
  simp [cancel_warning, h]

theorem cancel_warning_of_some {memId g : Nat} {st : EngineState} {e : Entry}
    (h : getEntry st.guildWarnings g memId = some e) :
    cancel_warning memId g st =
      ({ st with
           guildWarnings := removeEntry g memId st.guildWarnings,
           cancelled := st.cancelled ++ [e.timer] },
       [Cmd.deleteMessage e.warningMsg]) := by
  simp [cancel_warning, h]

theorem cancel_warning_cmds {memId g : Nat} {st : EngineState} {c : Cmd}
    (hc : c ∈ (cancel_warning memId g st).2) : ∃ r, c = Cmd.deleteMessage r := by
  unfold cancel_warning at hc
  cases h : getEntry st.guildWarnings g memId with
  | none => simp [h] at hc
  | some e =>
      rw [h] at hc
      simp only [List.mem_singleton] at hc
      exact ⟨e.warningMsg, hc⟩

theorem cancel_warning_getEntry_self (memId g : Nat) (st : EngineState) :
    getEntry (cancel_warning memId g st).1.guildWarnings g memId = none := by
  unfold cancel_warning
  cases h : getEntry st.guildWarnings g memId with
  | none => simpa using h
  | some e => simpa using getEntry_removeEntry_self g memId st.guildWarnings

theorem WFstate_cancel_warning {memId g : Nat} {st : EngineState}
    (h : WFstate st) : WFstate (cancel_warning memId g st).1 := by
  unfold cancel_warning
  cases hg : getEntry st.guildWarnings g memId with
  | none => exact h
  | some e => exact WFgw_removeEntry h

theorem WFstate_kick_after_delay {cfg : Config} {currentVoice : Option Nat}
    {memId g warningMsg : Nat} {st : EngineState} (h : WFstate st) :
    WFstate (kick_after_delay cfg currentVoice memId g warningMsg st).1 := by
  unfold kick_after_delay
  split
  · cases alookup g cfg with
    | none => exact h
    | some gc => exact WFgw_removeEntry h
  · exact h

theorem WFstate_joinLeaveBlock {vcs : List Nat} {tcid : Nat} {sendOk : Bool}
    {memId g : Nat} {before after : VoiceState} {st0 : EngineState} (h : WFstate st0) :
    WFstate (joinLeaveBlock vcs tcid sendOk memId g before after st0).1 := by
  unfold joinLeaveBlock
  split
  · split <;> split <;> first
      | exact WFstate_send_warning h
      | exact h
  · split
    · exact WFstate_cancel_warning h
    · exact h

theorem WFstate_camOnBlock {vcs : List Nat} {memId g : Nat}
    {before after : VoiceState} {st1 : EngineState} (h : WFstate st1) :
    WFstate (camOnBlock vcs memId g before after st1).1 := by
  unfold camOnBlock
  split
  · split
    · exact WFstate_cancel_warning h
    · exact h
  · exact h

theorem WFstate_camOffBlock {vcs : List Nat} {tcid : Nat} {sendOk : Bool}
    {memId g : Nat} {before after : VoiceState} {st2 : EngineState} (h : WFstate st2) :
    WFstate (camOffBlock vcs tcid sendOk memId g before after st2).1 := by
  unfold camOffBlock
  split
  · exact WFstate_send_warning h
  · exact h

theorem WFstate_rulesBody {vcs : List Nat} {tcid : Nat} {sendOk : Bool}
    {memId g : Nat} {before after : VoiceState} {st0 : EngineState} (h : WFstate st0) :
    WFstate (rulesBody vcs tcid sendOk memId g before after st0).1 := by
  unfold rulesBody
  exact WFstate_camOffBlock (WFstate_camOnBlock (WFstate_joinLeaveBlock h))

theorem WFstate_on_voice_state_update {cfg : Config} {sendOk : Bool} {mem : MemberInfo}
    {before after : VoiceState} {st : EngineState} (h : WFstate st) :
    WFstate (on_voice_state_update cfg sendOk mem before after st).1 := by
  unfold on_voice_state_update
  cases alookup mem.guildId cfg with
  | none => exact h
  | some gc =>
      simp only
      split
      · exact h
      · cases gc.textChannelId with
        | none => exact WFstate_ensureGuild h
        | some tcid =>
            simp only
            split
            · exact WFstate_ensureGuild h
            · exact WFstate_rulesBody (WFstate_ensureGuild h)

theorem WFstate_processTrace {cfg : Config} {ns : List Notif} {st : EngineState}
    (h : WFstate st) : WFstate (processTrace cfg ns st).1 := by
  induction ns generalizing st with
  | nil => exact h
  | cons n ns ih =>
      unfold processTrace
      exact ih (WFstate_on_voice_state_update h)

theorem entryCount_cons (p : Nat × List (Nat × Entry)) (ps : GW) (g m : Nat) :
    entryCount (p :: ps) g m =
      (if p.1 = g then p.2.countP (fun q => q.1 = m) else 0) + entryCount ps g m := by
  simp [entryCount]

theorem one_le_countP_of_alookup {m : Nat} {e : Entry} {part : List (Nat × Entry)}
    (h : alookup m part = some e) : 1 ≤ part.countP (fun q => q.1 = m) := by
  induction part with
  | nil => simp [alookup] at h
  | cons q qs ih =>
    rw [List.countP_cons]
    by_cases hq : q.1 = m
    · simp [hq]
    · simp only [alookup, if_neg hq] at h
      exact le_trans (ih h) (Nat.le_add_right _ _)

theorem countP_keys_le_one {part : List (Nat × Entry)} (h : WFpart part) (m : Nat) :
    part.countP (fun q => q.1 = m) ≤ 1 := by
  induction part with
  | nil => simp
  | cons q qs ih =>
    simp only [WFpart, List.map_cons, List.nodup_cons] at h
    rw [List.countP_cons]
    by_cases hq : q.1 = m
    · have h0 : qs.countP (fun r => r.1 = m) = 0 := by
        rw [List.countP_eq_zero]
        intro r hr hrm
        simp only [decide_eq_true_eq] at hrm
        apply h.1
        have hqr : q.1 = r.1 := hq.trans hrm.symm
        rw [hqr]
        exact List.mem_map_of_mem Prod.fst hr
      simp [hq, h0]
    · have h1 := ih h.2
      simp only [hq, decide_False, if_false, Nat.add_zero]
      exact h1

theorem entryCount_eq_zero {gw : GW} {g : Nat} (m : Nat)
    (h : g ∉ gw.map Prod.fst) : entryCount gw g m = 0 := by
  induction gw with
  | nil => rfl
  | cons p ps ih =>
    simp only [List.map_cons, List.mem_cons] at h
    push_neg at h
    rw [entryCount_cons, if_neg (fun he => h.1 he.symm), ih h.2]

theorem entryCount_le_one {gw : GW} (h : WFgw gw) (g m : Nat) :
    entryCount gw g m ≤ 1 := by
  induction gw with
  | nil => simp [entryCount]
  | cons p ps ih =>
    obtain ⟨h1, h2⟩ := h
    simp only [List.map_cons, List.nodup_cons] at h1
    rw [entryCount_cons]
    by_cases hp : p.1 = g
    · rw [if_pos hp]
      have hz : entryCount ps g m = 0 := entryCount_eq_zero m (by rw [← hp]; exact h1.1)
      have hc : p.2.countP (fun q => q.1 = m) ≤ 1 :=
        countP_keys_le_one (h2 p (List.mem_cons_self p ps)) m
      omega
    · rw [if_neg hp, Nat.zero_add]
      exact ih ⟨h1.2, fun q hq => h2 q (List.mem_cons_of_mem _ hq)⟩

theorem one_le_entryCount {gw : GW} {g m : Nat} {e : Entry}
    (h : getEntry gw g m = some e) : 1 ≤ entryCount gw g m := by
  induction gw with
  | nil => simp [getEntry, alookup] at h
  | cons p ps ih =>
    rw [entryCount_cons]
    by_cases hp : p.1 = g
    · rw [if_pos hp]
      have hm : alookup m p.2 = some e := by
        simpa [getEntry, alookup, hp] using h
      have := one_le_countP_of_alookup hm
      omega
    · rw [if_neg hp]
      have h' : getEntry ps g m = some e := by
        simpa [getEntry, alookup, hp] using h
      have := ih h'
      omega

theorem mem_joinLeaveBlock_cmds {vcs : List Nat} {tcid : Nat} {sendOk : Bool}
    {memId g : Nat} {before after : VoiceState} {st0 : EngineState} {c : Cmd}
    (hc : c ∈ (joinLeaveBlock vcs tcid sendOk memId g before after st0).2) :
    c = Cmd.mute memId ∨ c = Cmd.sendMessage tcid memId ∨ ∃ r, c = Cmd.deleteMessage r := by
  unfold joinLeaveBlock at hc
  split at hc
  · split at hc <;> split at hc
    · rcases List.mem_append.1 hc with hc | hc
      · simp only [List.mem_singleton] at hc
        exact Or.inl hc
      · rcases @send_warning_cmds sendOk tcid memId g st0 with h | h <;> rw [h] at hc
        · simp at hc
        · simp only [List.mem_singleton] at hc
          exact Or.inr (Or.inl hc)
    · simp only [List.mem_singleton] at hc
      exact Or.inl hc
    · rcases List.mem_append.1 hc with hc | hc
      · simp at hc
      · rcases @send_warning_cmds sendOk tcid memId g st0 with h | h <;> rw [h] at hc
        · simp at hc
        · simp only [List.mem_singleton] at hc
          exact Or.inr (Or.inl hc)
    · simp at hc
  · split at hc
    · exact Or.inr (Or.inr (cancel_warning_cmds hc))
    · simp at hc

theorem camOnBlock_cmds {vcs : List Nat} {memId g : Nat}
    {before after : VoiceState} {st1 : EngineState} {c : Cmd}
    (hc : c ∈ (camOnBlock vcs memId g before after st1).2) :
    (∃ r, c = Cmd.deleteMessage r) ∨ c = Cmd.unmute memId := by
  unfold camOnBlock at hc
  split at hc
  · split at hc
    · rcases List.mem_append.1 hc with hc | hc
      · exact Or.inl (cancel_warning_cmds hc)
      · split at hc
        · simp only [List.mem_singleton] at hc
          exact Or.inr hc
        · simp at hc
    · simp at hc
  · simp at hc

theorem camOffBlock_cmds {vcs : List Nat} {tcid : Nat} {sendOk : Bool} {memId g : Nat}
    {before after : VoiceState} {st2 : EngineState} {c : Cmd}
    (hc : c ∈ (camOffBlock vcs tcid sendOk memId g before after st2).2) :
    c = Cmd.sendMessage tcid memId := by
  unfold camOffBlock at hc
  split at hc
  · rcases @send_warning_cmds sendOk tcid memId g st2 with h | h <;> rw [h] at hc
    · simp at hc
    · simpa using hc
  · simp at hc

theorem unmute_camOnBlock {vcs : List Nat} {memId g : Nat}
    {before after : VoiceState} {st1 : EngineState} {x : Nat}
    (hc : Cmd.unmute x ∈ (camOnBlock vcs memId g before after st1).2) :
    x = memId ∧ isMonitored vcs before.channelId = true ∧ before.selfVideo = false ∧
      after.selfVideo = true ∧ hasEntry st1.guildWarnings g memId = true := by
  unfold camOnBlock at hc
  split at hc
  · rename_i hg
    split at hc
    · rename_i he
      rcases List.mem_append.1 hc with hc | hc
      · rcases cancel_warning_cmds hc with ⟨r, hr⟩
        simp at hr
      · split at hc
        · simp only [List.mem_singleton, Cmd.unmute.injEq] at hc
          simp only [Bool.and_eq_true, Bool.not_eq_true'] at hg
          exact ⟨hc, hg.1.1, hg.1.2, hg.2, he⟩
        · simp at hc
    · simp at hc
  · simp at hc

theorem joinLeaveBlock_fst_of_selfVideo {vcs : List Nat} {tcid : Nat} {sendOk : Bool}
    {memId g : Nat} {before after : VoiceState} {st0 : EngineState}
    (hv : after.selfVideo = true) (hA : isMonitored vcs after.channelId = true) :
    (joinLeaveBlock vcs tcid sendOk memId g before after st0).1 = st0 := by
  unfold joinLeaveBlock
  simp [hA, hv]

theorem joinLeaveBlock_of_leave {vcs : List Nat} {tcid : Nat} {sendOk : Bool}
    {memId g : Nat} {before after : VoiceState} {st0 : EngineState}
    (hB : isMonitored vcs before.channelId = true)
    (hA : isMonitored vcs after.channelId = false) :
    joinLeaveBlock vcs tcid sendOk memId g before after st0 =
      cancel_warning memId g st0 := by
  unfold joinLeaveBlock
  simp [hA, hB]

theorem unmute_rulesBody {vcs : List Nat} {tcid : Nat} {sendOk : Bool}
    {memId g : Nat} {before after : VoiceState} {st0 : EngineState} {x : Nat}
    (hc : Cmd.unmute x ∈ (rulesBody vcs tcid sendOk memId g before after st0).2) :
    x = memId ∧ isMonitored vcs before.channelId = true ∧
      isMonitored vcs after.channelId = true ∧ before.selfVideo = false ∧
      after.selfVideo = true ∧ hasEntry st0.guildWarnings g memId = true := by
  unfold rulesBody at hc
  simp only [List.mem_append] at hc
  rcases hc with (hc | hc) | hc
  · rcases mem_joinLeaveBlock_cmds hc with h | h | ⟨r, h⟩ <;> simp at h
  · have h := unmute_camOnBlock hc
    have he := h.2.2.2.2
    cases hA : isMonitored vcs after.channelId with
    | true =>
        rw [joinLeaveBlock_fst_of_selfVideo h.2.2.2.1 hA] at he
        exact ⟨h.1, h.2.1, rfl, h.2.2.1, h.2.2.2.1, he⟩
    | false =>
        rw [joinLeaveBlock_of_leave h.2.1 hA] at he
        rw [hasEntry, cancel_warning_getEntry_self] at he
        simp at he
  · have h := camOffBlock_cmds hc
    simp at h

theorem isMonitored_isSome {vcs : List Nat} {o : Option Nat}
    (h : isMonitored vcs o = true) : o.isSome = true := by
  cases o with
  | none => simp [isMonitored] at h
  | some c => rfl

theorem alookup_ensureGuild_isSome (g : Nat) (st : EngineState) :
    (alookup g (ensureGuild g st).guildWarnings).isSome = true := by
  unfold ensureGuild
  split
  · assumption
  · rename_i hn
    have hnone : alookup g st.guildWarnings = none := by
      cases hh : alookup g st.guildWarnings <;> simp [hh] at hn ⊢
    simp [alookup_append_none hnone, alookup]

theorem hasEntry_ensureGuild (g g' m : Nat) (st : EngineState) :
    hasEntry (ensureGuild g st).guildWarnings g' m = hasEntry st.guildWarnings g' m := by
  rw [hasEntry, hasEntry, getEntry_ensureGuild]

theorem mute_joinLeaveBlock {vcs : List Nat} {tcid : Nat} {sendOk : Bool}
    {memId g : Nat} {before after : VoiceState} {st0 : EngineState} {x : Nat}
    (hc : Cmd.mute x ∈ (joinLeaveBlock vcs tcid sendOk memId g before after st0).2) :
    x = memId ∧ isMonitored vcs after.channelId = true ∧
      after.channelId.isSome = true ∧ after.mute = false := by
  unfold joinLeaveBlock at hc
  split at hc
  · rename_i hA
    split at hc <;> rename_i hmc <;> split at hc
    · rcases List.mem_append.1 hc with hc | hc
      · simp only [List.mem_singleton, Cmd.mute.injEq] at hc
        simp only [Bool.and_eq_true, Bool.not_eq_true'] at hmc
        exact ⟨hc, hA, hmc.1, hmc.2⟩
      · rcases @send_warning_cmds sendOk tcid memId g st0 with h | h <;> rw [h] at hc <;>
          simp at hc
    · simp only [List.mem_singleton, Cmd.mute.injEq] at hc
      simp only [Bool.and_eq_true, Bool.not_eq_true'] at hmc
      exact ⟨hc, hA, hmc.1, hmc.2⟩
    · rcases List.mem_append.1 hc with hc | hc
      · simp at hc
      · rcases @send_warning_cmds sendOk tcid memId g st0 with h | h <;> rw [h] at hc <;>
          simp at hc
    · simp at hc
  · split at hc
    · rcases cancel_warning_cmds hc with ⟨r, hr⟩
      simp at hr
    · simp at hc

theorem mute_mem_joinLeaveBlock {vcs : List Nat} (tcid : Nat) (sendOk : Bool)
    (memId g : Nat) {before after : VoiceState} (st0 : EngineState)
    (hA : isMonitored vcs after.channelId = true) (hm : after.mute = false) :
    Cmd.mute memId ∈ (joinLeaveBlock vcs tcid sendOk memId g before after st0).2 := by
  have hsome : after.channelId.isSome = true := isMonitored_isSome hA
  unfold joinLeaveBlock
  simp only [hA, if_pos, hsome, hm, Bool.not_false, Bool.and_self, if_true]
  split <;> simp

theorem mute_rulesBody {vcs : List Nat} {tcid : Nat} {sendOk : Bool}
    {memId g : Nat} {before after : VoiceState} {st0 : EngineState} :
    Cmd.mute memId ∈ (rulesBody vcs tcid sendOk memId g before after st0).2 ↔
      isMonitored vcs after.channelId = true ∧ after.mute = false := by
  constructor
  · intro hc
    unfold rulesBody at hc
    simp only [List.mem_append] at hc
    rcases hc with (hc | hc) | hc
    · have h := mute_joinLeaveBlock hc
      exact ⟨h.2.1, h.2.2.2⟩
    · rcases camOnBlock_cmds hc with ⟨r, h⟩ | h <;> simp at h
    · have h := camOffBlock_cmds hc
      simp at h
  · rintro ⟨hA, hm⟩
    unfold rulesBody
    simp only [List.mem_append]
    exact Or.inl (Or.inl (mute_mem_joinLeaveBlock tcid sendOk memId g st0 hA hm))

theorem ovsu_unfold {cfg : Config} {gc : GuildConfig} {sendOk : Bool} {mem : MemberInfo}
    {before after : VoiceState} {st : EngineState} {tcid : Nat}
    (hcfg : alookup mem.guildId cfg = some gc) (hbot : mem.isBot = false)
    (htc : gc.textChannelId = some tcid) (hvcs : gc.voiceChannels ≠ []) :
    on_voice_state_update cfg sendOk mem before after st =
      rulesBody gc.voiceChannels tcid sendOk mem.id mem.guildId before after
        (ensureGuild mem.guildId st) := by
  unfold on_voice_state_update
  rw [hcfg]
  simp [hbot, htc, hvcs]

theorem ovsu_skip_unconfigured {cfg : Config} {sendOk : Bool} {mem : MemberInfo}
    {before after : VoiceState} {st : EngineState}
    (hcfg : alookup mem.guildId cfg = none) :
    on_voice_state_update cfg sendOk mem before after st = (st, []) := by
  unfold on_voice_state_update
  rw [hcfg]

theorem ovsu_skip_bot {cfg : Config} {sendOk : Bool} {mem : MemberInfo}
    {before after : VoiceState} {st : EngineState} (hbot : mem.isBot = true) :
    on_voice_state_update cfg sendOk mem before after st = (st, []) := by
  unfold on_voice_state_update
  cases h : alookup mem.guildId cfg <;> simp [hbot]

theorem ovsu_skip_no_text {cfg : Config} {gc : GuildConfig} {sendOk : Bool}
    {mem : MemberInfo} {before after : VoiceState} {st : EngineState}
    (hcfg : alookup mem.guildId cfg = some gc) (hbot : mem.isBot = false)
    (htc : gc.textChannelId = none) :
    on_voice_state_update cfg sendOk mem before after st =
      (ensureGuild mem.guildId st, []) := by
  unfold on_voice_state_update
  rw [hcfg]
  simp [hbot, htc]

theorem ovsu_skip_no_voice {cfg : Config} {gc : GuildConfig} {sendOk : Bool}
    {mem : MemberInfo} {before after : VoiceState} {st : EngineState}
    (hcfg : alookup mem.guildId cfg = some gc) (hbot : mem.isBot = false)
    (hvcs : gc.voiceChannels = []) :
    on_voice_state_update cfg sendOk mem before after st =
      (ensureGuild mem.guildId st, []) := by
  unfold on_voice_state_update
  rw [hcfg]
  cases htc : gc.textChannelId <;> simp [hbot, hvcs, htc]

theorem unmute_step_facts {cfg : Config} {sendOk : Bool} {mem : MemberInfo}
    {before after : VoiceState} {st : EngineState} {x : Nat}
    (hc : Cmd.unmute x ∈ (on_voice_state_update cfg sendOk mem before after st).2) :
    x = mem.id ∧ before.selfVideo = false ∧ after.selfVideo = true ∧
      (∃ gc, alookup mem.guildId cfg = some gc ∧
         isMonitored gc.voiceChannels before.channelId = true ∧
         isMonitored gc.voiceChannels after.channelId = true) ∧
      hasEntry st.guildWarnings mem.guildId mem.id = true := by
  cases hcfg : alookup mem.guildId cfg with
  | none =>
      rw [ovsu_skip_unconfigured hcfg] at hc
      simp at hc
  | some gc =>
      by_cases hbot : mem.isBot = true
      · rw [ovsu_skip_bot hbot] at hc
        simp at hc
      · have hbot2 : mem.isBot = false := by simpa using hbot
        cases htc : gc.textChannelId with
        | none =>
            rw [ovsu_skip_no_text hcfg hbot2 htc] at hc
            simp at hc
        | some tcid =>
            by_cases hvcs : gc.voiceChannels = []
            · rw [ovsu_skip_no_voice hcfg hbot2 hvcs] at hc
              simp at hc
            · rw [ovsu_unfold hcfg hbot2 htc hvcs] at hc
              have h := unmute_rulesBody hc
              refine ⟨h.1, h.2.2.2.1, h.2.2.2.2.1, ⟨gc, rfl, h.2.1, h.2.2.1⟩, ?_⟩
              rw [← hasEntry_ensureGuild mem.guildId mem.guildId mem.id st]
              exact h.2.2.2.2.2

theorem alookup_updateGuildCfg_self {g : Nat} {f : GuildConfig → GuildConfig}
    {cfg : Config} {gc : GuildConfig} (h : alookup g cfg = some gc) :
    alookup g (updateGuildCfg g f cfg) = some (f gc) := by
  induction cfg with
  | nil => simp [alookup] at h
  | cons p ps ih =>
    by_cases hp : p.1 = g
    · simp only [alookup, if_pos hp, Option.some.injEq] at h
      simp [updateGuildCfg, hp, alookup, h]
    · simp only [alookup, updateGuildCfg, if_neg hp] at h ⊢
      exact ih h

theorem keys_updateGuildCfg (g : Nat) (f : GuildConfig → GuildConfig) (cfg : Config) :
    (updateGuildCfg g f cfg).map Prod.fst = cfg.map Prod.fst := by
  induction cfg with
  | nil => rfl
  | cons p ps ih => by_cases hp : p.1 = g <;> simp [updateGuildCfg, hp, ih]

theorem mem_updateGuildCfg {g : Nat} {f : GuildConfig → GuildConfig} {cfg : Config}
    {p : Nat × GuildConfig} (hp : p ∈ updateGuildCfg g f cfg) :
    p ∈ cfg ∨ ∃ q, q ∈ cfg ∧ q.1 = g ∧ p = (g, f q.2) := by
  induction cfg with
  | nil => simp [updateGuildCfg] at hp
  | cons r rs ih =>
    by_cases hr : r.1 = g
    · simp only [updateGuildCfg, if_pos hr, List.mem_cons] at hp
      rcases hp with hp | hp
      · exact Or.inr ⟨r, List.mem_cons_self r rs, hr, hp⟩
      · exact Or.inl (List.mem_cons_of_mem _ hp)
    · simp only [updateGuildCfg, if_neg hr, List.mem_cons] at hp
      rcases hp with hp | hp
      · exact Or.inl (by simp [hp])
      · rcases ih hp with h | ⟨q, hq, hqg, he⟩
        · exact Or.inl (List.mem_cons_of_mem _ h)
        · exact Or.inr ⟨q, List.mem_cons_of_mem _ hq, hqg, he⟩

theorem alookup_of_mem_nodup {β : Type} {l : List (Nat × β)} {q : Nat × β}
    (hq : q ∈ l) (h : (l.map Prod.fst).Nodup) : alookup q.1 l = some q.2 := by
  induction l with
  | nil => simp at hq
  | cons p ps ih =>
    simp only [List.map_cons, List.nodup_cons] at h
    rcases List.mem_cons.1 hq with hq | hq
    · subst hq
      simp [alookup]
    · have hne : p.1 ≠ q.1 := by
        intro he
        apply h.1
        rw [he]
        exact List.mem_map_of_mem Prod.fst hq
      simp only [alookup, if_neg hne]
      exact ih hq h.2

theorem vcsOf_exists_of_mem {cfg : Config} {g cid : Nat} (h : cid ∈ vcsOf cfg g) :
    ∃ gc, alookup g cfg = some gc ∧ cid ∈ gc.voiceChannels := by
  unfold vcsOf at h
  cases hg : alookup g cfg with
  | none =>
      rw [hg] at h
      simp at h
  | some gc =>
      rw [hg] at h
      exact ⟨gc, rfl, by simpa using h⟩

theorem vcsOf_addEnsure (cfg : Config) (g : Nat) :
    vcsOf (if (alookup g cfg).isSome then cfg else cfg ++ [(g, ⟨[], none⟩)]) g =
      vcsOf cfg g := by
  split
  · rfl
  · rename_i hn
    have hnone : alookup g cfg = none := by
      cases hh : alookup g cfg <;> simp [hh] at hn ⊢
    unfold vcsOf
    rw [hnone, alookup_append_none hnone]
    simp [alookup]

/-- Claim C3 counterexample: community 1 is configured with a text
channel but an empty monitored-channel list; a notification for a
non-bot member is skipped, yet the warned-participant registry is NOT
left unchanged: the handler creates an empty partition for community 1
(`guild_warnings[guild_id_str] = {}` runs before the channels-configured
check), so the claim of zero registry change fails. -/
theorem C3_counterexample :
    (on_voice_state_update [(1, ⟨[], some 5⟩)] true ⟨2, 1, false⟩
        ⟨none, false, false⟩ ⟨none, false, false⟩ ⟨[], [], [], 0⟩).1.guildWarnings ≠
      (⟨[], [], [], 0⟩ : EngineState).guildWarnings := by
  decide

/-- Claim C3 (amended): a notification for an unconfigured community or
for a bot account is dropped with the state exactly unchanged and no
command issued; when the configuration has no monitored voice channels
or no text channel, no command is issued, no error is raised, no entry
is created or removed and no timer is scheduled or cancelled — the only
state change is that an empty registry partition for the community may
be created. -/
theorem C3_skip_paths (cfg : Config) (sendOk : Bool) (mem : MemberInfo)
    (before after : VoiceState) (st : EngineState) :
    (alookup mem.guildId cfg = none →
       on_voice_state_update cfg sendOk mem before after st = (st, [])) ∧
    (mem.isBot = true →
       on_voice_state_update cfg sendOk mem before after st = (st, [])) ∧
    (∀ gc, alookup mem.guildId cfg = some gc → mem.isBot = false →
       gc.textChannelId = none ∨ gc.voiceChannels = [] →
       on_voice_state_update cfg sendOk mem before after st =
           (ensureGuild mem.guildId st, []) ∧
         (∀ g m, getEntry (ensureGuild mem.guildId st).guildWarnings g m =
            getEntry st.guildWarnings g m) ∧
         (ensureGuild mem.guildId st).cancelled = st.cancelled ∧
         (ensureGuild mem.guildId st).scheduled = st.scheduled ∧
         (ensureGuild mem.guildId st).nextId = st.nextId) := by
  refine ⟨fun h => ovsu_skip_unconfigured h, fun h => ovsu_skip_bot h, ?_⟩
  intro gc hcfg hbot hor
  refine ⟨?_, fun g m => getEntry_ensureGuild mem.guildId g m st, cancelled_ensureGuild _ st,
          scheduled_ensureGuild _ st, nextId_ensureGuild _ st⟩
  rcases hor with h | h
  · exact ovsu_skip_no_text hcfg hbot h
  · exact ovsu_skip_no_voice hcfg hbot h

theorem C3_skip_paths_witness :
    (alookup 1 ([] : Config) = none ∧
       on_voice_state_update [] true ⟨2, 1, false⟩ ⟨none, false, false⟩
         ⟨none, false, false⟩ ⟨[], [], [], 0⟩ = (⟨[], [], [], 0⟩, [])) ∧
    ((⟨2, 1, true⟩ : MemberInfo).isBot = true ∧
       on_voice_state_update [(1, ⟨[7], some 5⟩)] true ⟨2, 1, true⟩ ⟨none, false, false⟩
         ⟨none, false, false⟩ ⟨[], [], [], 0⟩ = (⟨[], [], [], 0⟩, [])) ∧
    (alookup 1 ([(1, ⟨[], some 5⟩)] : Config) = some ⟨[], some 5⟩ ∧
       on_voice_state_update [(1, ⟨[], some 5⟩)] true ⟨2, 1, false⟩ ⟨none, false, false⟩
           ⟨none, false, false⟩ ⟨[], [], [], 0⟩ =
         (ensureGuild 1 ⟨[], [], [], 0⟩, [])) := by
  refine ⟨⟨by decide, (C3_skip_paths [] true ⟨2, 1, false⟩ ⟨none, false, false⟩
      ⟨none, false, false⟩ ⟨[], [], [], 0⟩).1 (by decide)⟩,
    ⟨by decide, (C3_skip_paths [(1, ⟨[7], some 5⟩)] true ⟨2, 1, true⟩ ⟨none, false, false⟩
      ⟨none, false, false⟩ ⟨[], [], [], 0⟩).2.1 (by decide)⟩,
    ⟨by decide, ?_⟩⟩
  exact ((C3_skip_paths [(1, ⟨[], some 5⟩)] true ⟨2, 1, false⟩ ⟨none, false, false⟩
      ⟨none, false, false⟩ ⟨[], [], [], 0⟩).2.2 ⟨[], some 5⟩ (by decide) (by decide)
      (Or.inr (by decide))).1

/-- Claim C5: if sending the warning message fails, `send_warning`
leaves the whole engine state unchanged — no warned-participant entry is
created, no kick timer is scheduled, the registry is untouched. -/
theorem C5_send_fail_no_entry (tcid memId g : Nat) (st : EngineState) :
    (send_warning false tcid memId g st).1 = st :=
  send_warning_fst_of_fail tcid memId g st

/-- Claim C6: `cancel_warning` for a pair with no entry is a no-op (same
state, no command); with an entry it records the cancellation of the
entry's timer handle, issues exactly the best-effort delete of the
stored warning message, and removes the entry from the registry. -/
theorem C6_clear_warning_spec (memId g : Nat) (st : EngineState) :
    (getEntry st.guildWarnings g memId = none →
       cancel_warning memId g st = (st, [])) ∧
    (∀ e, getEntry st.guildWarnings g memId = some e →
       (cancel_warning memId g st).1.cancelled = st.cancelled ++ [e.timer] ∧
       (cancel_warning memId g st).2 = [Cmd.deleteMessage e.warningMsg] ∧
       getEntry (cancel_warning memId g st).1.guildWarnings g memId = none) := by
  refine ⟨fun h => cancel_warning_of_none h, ?_⟩
  intro e he
  rw [cancel_warning_of_some he]
  exact ⟨rfl, rfl, getEntry_removeEntry_self g memId st.guildWarnings⟩

theorem C6_clear_warning_spec_witness :
    (getEntry ([] : GW) 1 2 = none ∧
       cancel_warning 2 1 ⟨[], [], [], 0⟩ = (⟨[], [], [], 0⟩, [])) ∧
    (getEntry ([(1, [(2, ⟨0, 1⟩)])] : GW) 1 2 = some ⟨0, 1⟩ ∧
       (cancel_warning 2 1 ⟨[(1, [(2, ⟨0, 1⟩)])], [], [1], 2⟩).1.cancelled = [] ++ [1] ∧
       (cancel_warning 2 1 ⟨[(1, [(2, ⟨0, 1⟩)])], [], [1], 2⟩).2 = [Cmd.deleteMessage 0] ∧
       getEntry (cancel_warning 2 1 ⟨[(1, [(2, ⟨0, 1⟩)])], [], [1], 2⟩).1.guildWarnings 1 2 =
         none) := by
  refine ⟨⟨by decide, (C6_clear_warning_spec 2 1 ⟨[], [], [], 0⟩).1 (by decide)⟩,
    ⟨by decide, ?_⟩⟩
  exact (C6_clear_warning_spec 2 1 ⟨[(1, [(2, ⟨0, 1⟩)])], [], [1], 2⟩).2 ⟨0, 1⟩ (by decide)

/-- Claim C4: when the delayed kick fires, a vanished entry means no
effect at all; with an entry still present, the member's current voice
channel is re-checked against the community's current monitored set — a
remove-from-session (`move_to(None)`) is issued iff the member currently
sits in a monitored channel (so a member who left all monitored channels
before expiry is not removed) — and regardless the captured warning
message is deleted and the entry is removed from the registry. -/
theorem C4_kick_recheck (cfg : Config) (currentVoice : Option Nat)
    (memId g warningMsg : Nat) (st : EngineState) :
    (hasEntry st.guildWarnings g memId = false →
       kick_after_delay cfg currentVoice memId g warningMsg st = (st, [])) ∧
    (∀ gc, hasEntry st.guildWarnings g memId = true → alookup g cfg = some gc →
       ((Cmd.moveToNone memId ∈
           (kick_after_delay cfg currentVoice memId g warningMsg st).2) ↔
          isMonitored gc.voiceChannels currentVoice = true) ∧
       Cmd.deleteMessage warningMsg ∈
         (kick_after_delay cfg currentVoice memId g warningMsg st).2 ∧
       getEntry (kick_after_delay cfg currentVoice memId g warningMsg st).1.guildWarnings
         g memId = none) := by
  constructor
  · intro h
    unfold kick_after_delay
    rw [h]
    simp
  · intro gc hhas hcfg
    unfold kick_after_delay
    rw [hhas, hcfg]
    simp only [if_true]
    refine ⟨?_, by simp, by simpa using getEntry_removeEntry_self g memId st.guildWarnings⟩
    cases currentVoice with
    | none => simp [isMonitored, List.mem_filterMap]
    | some c =>
        simp only [List.mem_append, List.mem_filterMap, List.mem_singleton, isMonitored]
        constructor
        · rintro (⟨cid, hcid, hif⟩ | hko)
          · by_cases hcc : (some c : Option Nat) = some cid
            · simp only [Option.some.injEq] at hcc
              subst hcc
              simpa using hcid
            · simp [hcc] at hif
          · simp at hko
        · intro hmem
          refine Or.inl ⟨c, by simpa using hmem, by simp⟩

theorem C4_kick_recheck_witness :
    (hasEntry ([] : GW) 1 2 = false ∧
       kick_after_delay [(1, ⟨[7], some 5⟩)] (some 7) 2 1 0 ⟨[], [], [], 0⟩ =
         (⟨[], [], [], 0⟩, [])) ∧
    (hasEntry ([(1, [(2, ⟨0, 1⟩)])] : GW) 1 2 = true ∧
     alookup 1 ([(1, ⟨[7], some 5⟩)] : Config) = some ⟨[7], some 5⟩ ∧
     ((Cmd.moveToNone 2 ∈
         (kick_after_delay [(1, ⟨[7], some 5⟩)] none 2 1 0
           ⟨[(1, [(2, ⟨0, 1⟩)])], [], [1], 2⟩).2) ↔
        isMonitored [7] none = true) ∧
     Cmd.deleteMessage 0 ∈
       (kick_after_delay [(1, ⟨[7], some 5⟩)] none 2 1 0
         ⟨[(1, [(2, ⟨0, 1⟩)])], [], [1], 2⟩).2 ∧
     getEntry (kick_after_delay [(1, ⟨[7], some 5⟩)] none 2 1 0
         ⟨[(1, [(2, ⟨0, 1⟩)])], [], [1], 2⟩).1.guildWarnings 1 2 = none) := by
  refine ⟨⟨by decide, (C4_kick_recheck [(1, ⟨[7], some 5⟩)] (some 7) 2 1 0
      ⟨[], [], [], 0⟩).1 (by decide)⟩, ⟨by decide, by decide, ?_⟩⟩
  exact (C4_kick_recheck [(1, ⟨[7], some 5⟩)] none 2 1 0
      ⟨[(1, [(2, ⟨0, 1⟩)])], [], [1], 2⟩).2 ⟨[7], some 5⟩ (by decide) (by decide)

theorem CfgWF_add_step {cfg : Config} {g cid : Nat} {gc : GuildConfig}
    (h : CfgWF cfg) (hgc : alookup g cfg = some gc) (hniv : cid ∉ gc.voiceChannels) :
    CfgWF (updateGuildCfg g
      (fun gc2 => { gc2 with voiceChannels := gc2.voiceChannels ++ [cid] }) cfg) := by
  obtain ⟨h1, h2⟩ := h
  refine ⟨by rw [keys_updateGuildCfg]; exact h1, ?_⟩
  intro p hp
  rcases mem_updateGuildCfg hp with hp | ⟨q, hq, hqg, he⟩
  · exact h2 p hp
  · subst he
    have hl : alookup g cfg = some q.2 := by
      rw [← hqg]
      exact alookup_of_mem_nodup hq h1
    rw [hgc] at hl
    have hq2 : q.2 = gc := (Option.some.inj hl).symm
    have hnd : q.2.voiceChannels.Nodup := h2 q hq
    rw [hq2] at hnd ⊢
    simpa [List.nodup_append] using ⟨hnd, hniv⟩

theorem CfgWF_remove_step {cfg : Config} {g cid : Nat} (h : CfgWF cfg) :
    CfgWF (updateGuildCfg g
      (fun gc2 => { gc2 with voiceChannels := gc2.voiceChannels.erase cid }) cfg) := by
  obtain ⟨h1, h2⟩ := h
  refine ⟨by rw [keys_updateGuildCfg]; exact h1, ?_⟩
  intro p hp
  rcases mem_updateGuildCfg hp with hp | ⟨q, hq, hqg, he⟩
  · exact h2 p hp
  · subst he
    exact (h2 q hq).erase cid

theorem CfgWF_append_fresh {cfg : Config} {g : Nat} (h : CfgWF cfg)
    (hn : alookup g cfg = none) : CfgWF (cfg ++ [(g, ⟨[], none⟩)]) := by
  obtain ⟨h1, h2⟩ := h
  constructor
  · simp only [List.map_append, List.map_cons, List.map_nil]
    rw [List.nodup_append]
    refine ⟨h1, List.nodup_singleton g, fun a ha hb => ?_⟩
    simp only [List.mem_singleton] at hb
    subst hb
    exact (alookup_eq_none.1 hn) ha
  · intro p hp
    rcases List.mem_append.1 hp with hp | hp
    · exact h2 p hp
    · simp only [List.mem_singleton] at hp
      subst hp
      simp

/-- Claim C8: `!addvoicechannel` and `!removevoicechannel` are
idempotent set operations: adding an already-monitored channel id or
removing an unmonitored one reports the no-op status, leaves the
configuration unchanged and does not re-persist it; otherwise the list
is mutated as a set (append resp. remove) and the configuration is
saved. -/
theorem C8_admin_idempotent (cfg : Config) (g cid : Nat) :
    (cid ∈ vcsOf cfg g →
       addvoicechannel cfg g cid = (cfg, Resp.alreadyMonitored, false)) ∧
    (cid ∉ vcsOf cfg g →
       (addvoicechannel cfg g cid).2 = (Resp.addedChan, true) ∧
       vcsOf (addvoicechannel cfg g cid).1 g = vcsOf cfg g ++ [cid]) ∧
    (cid ∉ vcsOf cfg g →
       removevoicechannel cfg g cid = (cfg, Resp.notMonitored, false)) ∧
    (cid ∈ vcsOf cfg g →
       (removevoicechannel cfg g cid).2 = (Resp.removedChan, true) ∧
       vcsOf (removevoicechannel cfg g cid).1 g = (vcsOf cfg g).erase cid) := by
  refine ⟨?_, ?_, ?_, ?_⟩
  · intro h
    obtain ⟨gc, hgc, hmem⟩ := vcsOf_exists_of_mem h
    unfold addvoicechannel
    rw [hgc]
    simp only [Option.isSome_some, if_true]
    rw [if_pos (by simpa using h)]
  · intro h
    unfold addvoicechannel
    cases halo : alookup g cfg with
    | some gc =>
        simp only [Option.isSome_some, if_true]
        rw [if_neg (by simpa using h)]
        refine ⟨rfl, ?_⟩
        unfold vcsOf
        rw [alookup_updateGuildCfg_self halo]
        simp [vcsOf, halo]
    | none =>
        have halo2 : alookup g (cfg ++ [(g, ⟨[], none⟩)]) = some ⟨[], none⟩ := by
          rw [alookup_append_none halo]
          simp [alookup]
        simp only [Option.isSome_none]
        rw [if_neg (by simp [vcsOf, halo2])]
        refine ⟨rfl, ?_⟩
        rw [if_neg (by simp)]
        unfold vcsOf
        rw [alookup_updateGuildCfg_self halo2]
        simp [vcsOf, halo]
  · intro h
    unfold removevoicechannel
    rw [if_neg (by simpa using h)]
  · intro h
    obtain ⟨gc, hgc, hmem⟩ := vcsOf_exists_of_mem h
    unfold removevoicechannel
    rw [if_pos (by simpa using h)]
    refine ⟨rfl, ?_⟩
    unfold vcsOf
    rw [alookup_updateGuildCfg_self hgc]
    simp [vcsOf, hgc]

theorem C8_admin_idempotent_witness :
    (7 ∈ vcsOf [(1, ⟨[7], some 5⟩)] 1 ∧
       addvoicechannel [(1, ⟨[7], some 5⟩)] 1 7 =
         ([(1, ⟨[7], some 5⟩)], Resp.alreadyMonitored, false)) ∧
    (9 ∉ vcsOf [(1, ⟨[7], some 5⟩)] 1 ∧
       (addvoicechannel [(1, ⟨[7], some 5⟩)] 1 9).2 = (Resp.addedChan, true) ∧
       vcsOf (addvoicechannel [(1, ⟨[7], some 5⟩)] 1 9).1 1 =
         vcsOf [(1, ⟨[7], some 5⟩)] 1 ++ [9]) ∧
    (9 ∉ vcsOf [(1, ⟨[7], some 5⟩)] 1 ∧
       removevoicechannel [(1, ⟨[7], some 5⟩)] 1 9 =
         ([(1, ⟨[7], some 5⟩)], Resp.notMonitored, false)) ∧
    (7 ∈ vcsOf [(1, ⟨[7], some 5⟩)] 1 ∧
       (removevoicechannel [(1, ⟨[7], some 5⟩)] 1 7).2 = (Resp.removedChan, true) ∧
       vcsOf (removevoicechannel [(1, ⟨[7], some 5⟩)] 1 7).1 1 =
         (vcsOf [(1, ⟨[7], some 5⟩)] 1).erase 7) :=
  ⟨⟨by decide, (C8_admin_idempotent [(1, ⟨[7], some 5⟩)] 1 7).1 (by decide)⟩,
   ⟨by decide, (C8_admin_idempotent [(1, ⟨[7], some 5⟩)] 1 9).2.1 (by decide)⟩,
   ⟨by decide, (C8_admin_idempotent [(1, ⟨[7], some 5⟩)] 1 9).2.2.1 (by decide)⟩,
   ⟨by decide, (C8_admin_idempotent [(1, ⟨[7], some 5⟩)] 1 7).2.2.2 (by decide)⟩⟩

/-- Claim C10: starting from a configuration whose guild keys and
monitored voice-channel lists are duplicate-free, both admin commands
preserve that property: the stored list never acquires a duplicate id
(`addvoicechannel` refuses already-present ids before appending), so the
list faithfully represents a set. -/
theorem C10_config_nodup (cfg : Config) (g cid : Nat) (h : CfgWF cfg) :
    CfgWF (addvoicechannel cfg g cid).1 ∧ CfgWF (removevoicechannel cfg g cid).1 := by
  constructor
  · unfold addvoicechannel
    cases halo : alookup g cfg with
    | some gc =>
        simp only [Option.isSome_some, if_true]
        by_cases hcont : ((vcsOf cfg g).contains cid) = true
        · rw [if_pos hcont]
          exact h
        · rw [if_neg hcont]
          have hniv : cid ∉ gc.voiceChannels := by
            intro hmem
            apply hcont
            have hv : cid ∈ vcsOf cfg g := by simp [vcsOf, halo, hmem]
            simpa using hv
          exact CfgWF_add_step h halo hniv
    | none =>
        have h1 : CfgWF (cfg ++ [(g, ⟨[], none⟩)]) := CfgWF_append_fresh h halo
        have halo2 : alookup g (cfg ++ [(g, ⟨[], none⟩)]) = some ⟨[], none⟩ := by
          rw [alookup_append_none halo]
          simp [alookup]
        simp only [Option.isSome_none]
        rw [if_neg (by simp [vcsOf, halo2])]
        rw [if_neg (by simp)]
        exact CfgWF_add_step h1 halo2 (by simp)
  · unfold removevoicechannel
    by_cases hcont : ((vcsOf cfg g).contains cid) = true
    · rw [if_pos hcont]
      exact CfgWF_remove_step h
    · rw [if_neg hcont]
      exact h

instance (cfg : Config) : Decidable (CfgWF cfg) := by
  unfold CfgWF
  infer_instance

theorem C10_config_nodup_witness :
    CfgWF [(1, ⟨[7], some 5⟩)] ∧
    CfgWF (addvoicechannel [(1, ⟨[7], some 5⟩)] 1 9).1 ∧
    CfgWF (removevoicechannel [(1, ⟨[7], some 5⟩)] 1 9).1 := by
  refine ⟨by decide, ?_, ?_⟩
  · exact (C10_config_nodup [(1, ⟨[7], some 5⟩)] 1 9 (by decide)).1
  · exact (C10_config_nodup [(1, ⟨[7], some 5⟩)] 1 9 (by decide)).2

instance (part : List (Nat × Entry)) : Decidable (WFpart part) := by
  unfold WFpart
  infer_instance

instance (gw : GW) : Decidable (WFgw gw) := by
  unfold WFgw
  infer_instance

instance (st : EngineState) : Decidable (WFstate st) := by
  unfold WFstate
  infer_instance

/-- Claim C1: processing preserves registry well-formedness, under which
at most one entry exists per (community, participant) after any sequence
of notifications; `send_warning` with an existing entry returns
immediately with no effect; and two successive successful raises without
an intervening clear leave exactly one outstanding entry and exactly one
sent warning message. -/
theorem C1_unique_idempotent (cfg : Config) (ns : List Notif) (st : EngineState)
    (g m tcid memId : Nat) (sendOk : Bool) :
    (WFstate st → WFstate (processTrace cfg ns st).1) ∧
    (WFstate st → entryCount st.guildWarnings g m ≤ 1) ∧
    (hasEntry st.guildWarnings g memId = true →
       send_warning sendOk tcid memId g st = (st, [])) ∧
    (WFstate st → hasEntry st.guildWarnings g memId = false →
       (alookup g st.guildWarnings).isSome = true →
       entryCount (send_warning true tcid memId g
           (send_warning true tcid memId g st).1).1.guildWarnings g memId = 1 ∧
       ((send_warning true tcid memId g st).2 ++
          (send_warning true tcid memId g (send_warning true tcid memId g st).1).2).countP
         (fun c => c = Cmd.sendMessage tcid memId) = 1) := by
  refine ⟨fun h => WFstate_processTrace h, fun h => entryCount_le_one h g m,
    fun h => send_warning_of_hasEntry h, ?_⟩
  intro hwf hno hsome
  obtain ⟨part, hpart⟩ := Option.isSome_iff_exists.1 hsome
  have h1 : send_warning true tcid memId g st =
      ({ guildWarnings := putEntry g memId ⟨st.nextId, st.nextId + 1⟩ st.guildWarnings,
         cancelled := st.cancelled, scheduled := st.scheduled ++ [st.nextId + 1],
         nextId := st.nextId + 2 }, [Cmd.sendMessage tcid memId]) := by
    unfold send_warning
    rw [hno]
    simp
  have hget : getEntry (send_warning true tcid memId g st).1.guildWarnings g memId =
      some ⟨st.nextId, st.nextId + 1⟩ := by
    rw [h1]
    exact getEntry_putEntry_self hpart
  have hhas : hasEntry (send_warning true tcid memId g st).1.guildWarnings g memId = true := by
    rw [hasEntry, hget]
    rfl
  have h2 : send_warning true tcid memId g (send_warning true tcid memId g st).1 =
      ((send_warning true tcid memId g st).1, []) := send_warning_of_hasEntry hhas
  constructor
  · rw [h2]
    show entryCount (send_warning true tcid memId g st).1.guildWarnings g memId = 1
    have hle := entryCount_le_one (@WFstate_send_warning true tcid memId g st hwf) g memId
    have hge := one_le_entryCount hget
    omega
  · rw [h2, h1]
    simp

theorem C1_unique_idempotent_witness :
    (WFstate ⟨[(1, [])], [], [], 0⟩ ∧
     hasEntry ([(1, [])] : GW) 1 2 = false ∧
     (alookup 1 ([(1, [])] : GW)).isSome = true) ∧
    (entryCount (send_warning true 5 2 1
         (send_warning true 5 2 1 ⟨[(1, [])], [], [], 0⟩).1).1.guildWarnings 1 2 = 1 ∧
     ((send_warning true 5 2 1 ⟨[(1, [])], [], [], 0⟩).2 ++
        (send_warning true 5 2 1 (send_warning true 5 2 1 ⟨[(1, [])], [], [], 0⟩).1).2).countP
       (fun c => c = Cmd.sendMessage 5 2) = 1) := by
  refine ⟨⟨by decide, by decide, by decide⟩, ?_⟩
  exact (C1_unique_idempotent [] [] ⟨[(1, [])], [], [], 0⟩ 1 2 5 2 true).2.2.2
    (by decide) (by decide) (by decide)

/-- Claim C7: a leave notification (before-channel monitored, after not)
makes the engine invoke clear-warning and leaves the mute state alone:
no mute and no unmute command is issued by any rule on such a
notification; when additionally the camera flag is unchanged, the whole
step is exactly `cancel_warning` on the partition-ensured state. -/
theorem C7_leave_clear_no_unmute (cfg : Config) (gc : GuildConfig) (sendOk : Bool)
    (mem : MemberInfo) (before after : VoiceState) (st : EngineState) (tcid : Nat)
    (hcfg : alookup mem.guildId cfg = some gc) (hbot : mem.isBot = false)
    (htc : gc.textChannelId = some tcid) (hvcs : gc.voiceChannels ≠ [])
    (hB : isMonitored gc.voiceChannels before.channelId = true)
    (hA : isMonitored gc.voiceChannels after.channelId = false) :
    (∀ x, Cmd.mute x ∉ (on_voice_state_update cfg sendOk mem before after st).2 ∧
          Cmd.unmute x ∉ (on_voice_state_update cfg sendOk mem before after st).2) ∧
    (before.selfVideo = after.selfVideo →
       on_voice_state_update cfg sendOk mem before after st =
         cancel_warning mem.id mem.guildId (ensureGuild mem.guildId st)) := by
  rw [ovsu_unfold hcfg hbot htc hvcs]
  constructor
  · intro x
    constructor
    · intro hc
      unfold rulesBody at hc
      simp only [List.mem_append] at hc
      rcases hc with (hc | hc) | hc
      · have h := mute_joinLeaveBlock hc
        rw [h.2.1] at hA
        simp at hA
      · rcases camOnBlock_cmds hc with ⟨r, h⟩ | h <;> simp at h
      · have h := camOffBlock_cmds hc
        simp at h
    · intro hc
      have h := unmute_rulesBody hc
      rw [h.2.2.1] at hA
      simp at hA
  · intro hv
    unfold rulesBody camOnBlock camOffBlock
    rw [joinLeaveBlock_of_leave hB hA]
    have hg2 : (isMonitored gc.voiceChannels before.channelId && !before.selfVideo &&
        after.selfVideo) = false := by
      cases hbv : before.selfVideo
      · rw [hbv] at hv
        rw [← hv]
        simp
      · simp [hbv]
    have hg3 : (isMonitored gc.voiceChannels before.channelId && before.selfVideo &&
        !after.selfVideo) = false := by
      cases hbv : before.selfVideo
      · simp [hbv]
      · rw [hbv] at hv
        rw [← hv]
        simp
    rw [hg2, hg3]
    simp

theorem C7_leave_clear_no_unmute_witness :
    (Cmd.mute 2 ∉ (on_voice_state_update [(1, ⟨[7], some 5⟩)] true ⟨2, 1, false⟩
        ⟨some 7, false, false⟩ ⟨none, false, false⟩
        ⟨[(1, [(2, ⟨0, 1⟩)])], [], [1], 2⟩).2 ∧
     Cmd.unmute 2 ∉ (on_voice_state_update [(1, ⟨[7], some 5⟩)] true ⟨2, 1, false⟩
        ⟨some 7, false, false⟩ ⟨none, false, false⟩
        ⟨[(1, [(2, ⟨0, 1⟩)])], [], [1], 2⟩).2) ∧
    on_voice_state_update [(1, ⟨[7], some 5⟩)] true ⟨2, 1, false⟩
        ⟨some 7, false, false⟩ ⟨none, false, false⟩ ⟨[(1, [(2, ⟨0, 1⟩)])], [], [1], 2⟩ =
      cancel_warning 2 1 (ensureGuild 1 ⟨[(1, [(2, ⟨0, 1⟩)])], [], [1], 2⟩) := by
  constructor
  · exact (C7_leave_clear_no_unmute [(1, ⟨[7], some 5⟩)] ⟨[7], some 5⟩ true ⟨2, 1, false⟩
      ⟨some 7, false, false⟩ ⟨none, false, false⟩ ⟨[(1, [(2, ⟨0, 1⟩)])], [], [1], 2⟩ 5
      (by decide) (by decide) (by decide) (by decide) (by decide) (by decide)).1 2
  · exact (C7_leave_clear_no_unmute [(1, ⟨[7], some 5⟩)] ⟨[7], some 5⟩ true ⟨2, 1, false⟩
      ⟨some 7, false, false⟩ ⟨none, false, false⟩ ⟨[(1, [(2, ⟨0, 1⟩)])], [], [1], 2⟩ 5
      (by decide) (by decide) (by decide) (by decide) (by decide) (by decide)).2 rfl

theorem no_unmute_trace {cfg : Config} {x : Nat} :
    ∀ (ns : List Notif) (st : EngineState),
      (∀ n ∈ ns, n.before.selfVideo = true ∨ n.after.selfVideo = false) →
      Cmd.unmute x ∉ (processTrace cfg ns st).2
  | [], st, _ => by simp [processTrace]
  | n :: ns, st, h => by
      unfold processTrace
      simp only [List.mem_append]
      rintro (hc | hc)
      · have hf := unmute_step_facts hc
        rcases h n (List.mem_cons_self n ns) with hb | ha
        · rw [hf.2.1] at hb
          simp at hb
        · rw [hf.2.2.1] at ha
          simp at ha
      · exact no_unmute_trace ns
          (on_voice_state_update cfg n.sendOk n.mem n.before n.after st).1
          (fun n2 hn2 => h n2 (List.mem_cons_of_mem _ hn2)) hc

/-- Claim C9: an unmute command can only arise from the camera-turned-on
rule — it is addressed to the notified member, requires the
before-channel to be monitored, the camera flag to flip off→on, and a
warned-participant entry to exist at that moment; consequently, across
any notification sequence in which the member's camera flag never flips
off→on, the engine never issues an unmute. -/
theorem C9_unmute_temporal (cfg : Config) (sendOk : Bool) (mem : MemberInfo)
    (before after : VoiceState) (st : EngineState) (ns : List Notif) (x : Nat) :
    (Cmd.unmute x ∈ (on_voice_state_update cfg sendOk mem before after st).2 →
       x = mem.id ∧ before.selfVideo = false ∧ after.selfVideo = true ∧
       (∃ gc, alookup mem.guildId cfg = some gc ∧
          isMonitored gc.voiceChannels before.channelId = true ∧
          isMonitored gc.voiceChannels after.channelId = true) ∧
       hasEntry st.guildWarnings mem.guildId mem.id = true) ∧
    ((∀ n ∈ ns, n.before.selfVideo = true ∨ n.after.selfVideo = false) →
       Cmd.unmute x ∉ (processTrace cfg ns st).2) :=
  ⟨fun hc => unmute_step_facts hc, fun hns => no_unmute_trace ns st hns⟩

theorem C9_unmute_temporal_witness :
    (Cmd.unmute 2 ∈ (on_voice_state_update [(1, ⟨[7], some 5⟩)] true ⟨2, 1, false⟩
        ⟨some 7, false, false⟩ ⟨some 7, true, false⟩
        ⟨[(1, [(2, ⟨0, 1⟩)])], [], [1], 2⟩).2 ∧
     ((2 : Nat) = 2 ∧ (false : Bool) = false ∧ (true : Bool) = true ∧
      (∃ gc, alookup 1 ([(1, ⟨[7], some 5⟩)] : Config) = some gc ∧
         isMonitored gc.voiceChannels (some 7) = true ∧
         isMonitored gc.voiceChannels (some 7) = true) ∧
      hasEntry ([(1, [(2, ⟨0, 1⟩)])] : GW) 1 2 = true)) ∧
    ((∀ n ∈ ([⟨⟨2, 1, false⟩, ⟨some 7, true, false⟩, ⟨some 7, true, false⟩, true⟩] :
        List Notif), n.before.selfVideo = true ∨ n.after.selfVideo = false) ∧
     Cmd.unmute 2 ∉ (processTrace [(1, ⟨[7], some 5⟩)]
        [⟨⟨2, 1, false⟩, ⟨some 7, true, false⟩, ⟨some 7, true, false⟩, true⟩]
        ⟨[(1, [(2, ⟨0, 1⟩)])], [], [1], 2⟩).2) := by
  constructor
  · refine ⟨by decide, ?_⟩
    exact (C9_unmute_temporal [(1, ⟨[7], some 5⟩)] true ⟨2, 1, false⟩
        ⟨some 7, false, false⟩ ⟨some 7, true, false⟩ ⟨[(1, [(2, ⟨0, 1⟩)])], [], [1], 2⟩
        [] 2).1 (by decide)
  · refine ⟨by decide, ?_⟩
    exact (C9_unmute_temporal [(1, ⟨[7], some 5⟩)] true ⟨2, 1, false⟩
        ⟨some 7, false, false⟩ ⟨some 7, true, false⟩ ⟨[(1, [(2, ⟨0, 1⟩)])], [], [1], 2⟩
        [⟨⟨2, 1, false⟩, ⟨some 7, true, false⟩, ⟨some 7, true, false⟩, true⟩] 2).2
      (by decide)

/-- Claim C2 counterexample: community 1 monitors channel 7; member 2,
unmuted, sits in channel 7 (monitored before AND after) and merely
toggles the camera off.  The claim says such a notification must not
trigger the enter rule's mute or raise-warning, yet the handler issues a
mute and sends a warning message (no other rule issues mute commands),
because the enter branch checks only the after-channel
(`if is_monitored_channel(after.channel):` has no before-channel
guard). -/
theorem C2_counterexample :
    (on_voice_state_update [(1, ⟨[7], some 5⟩)] true ⟨2, 1, false⟩
        ⟨some 7, true, false⟩ ⟨some 7, false, false⟩ ⟨[], [], [], 0⟩).2 =
      [Cmd.mute 2, Cmd.sendMessage 5 2] := by
  decide

/-- Claim C2 (amended): the enter branch fires exactly when the
after-channel is monitored, regardless of the before-channel: a mute is
issued iff the after-channel is monitored and the member is not already
server-muted.  Rules 1 and 4 are therefore not disjoint — a notification
staying inside a monitored channel while the camera turns off invokes
raise-warning from both — but the idempotence guard still yields exactly
one sent warning message and exactly one outstanding entry. -/
theorem C2_enter_fires_on_after (cfg : Config) (gc : GuildConfig) (sendOk : Bool)
    (mem : MemberInfo) (before after : VoiceState) (st : EngineState) (tcid : Nat)
    (hcfg : alookup mem.guildId cfg = some gc) (hbot : mem.isBot = false)
    (htc : gc.textChannelId = some tcid) (hvcs : gc.voiceChannels ≠ []) :
    (Cmd.mute mem.id ∈ (on_voice_state_update cfg sendOk mem before after st).2 ↔
       isMonitored gc.voiceChannels after.channelId = true ∧ after.mute = false) ∧
    (isMonitored gc.voiceChannels before.channelId = true →
     isMonitored gc.voiceChannels after.channelId = true →
     before.selfVideo = true → after.selfVideo = false →
     WFstate st → getEntry st.guildWarnings mem.guildId mem.id = none →
     (on_voice_state_update cfg true mem before after st).2.countP
         (fun c => c = Cmd.sendMessage tcid mem.id) = 1 ∧
     entryCount (on_voice_state_update cfg true mem before after st).1.guildWarnings
         mem.guildId mem.id = 1) := by
  constructor
  · rw [ovsu_unfold hcfg hbot htc hvcs]
    exact mute_rulesBody
  · intro hB hA hbv hav hwf hnone
    rw [ovsu_unfold hcfg hbot htc hvcs]
    have hnone0 : getEntry (ensureGuild mem.guildId st).guildWarnings mem.guildId mem.id =
        none := by
      rw [getEntry_ensureGuild]
      exact hnone
    have hhas0 : hasEntry (ensureGuild mem.guildId st).guildWarnings mem.guildId mem.id =
        false := by
      rw [hasEntry, hnone0]
      rfl
    obtain ⟨part, hpart⟩ :=
      Option.isSome_iff_exists.1 (alookup_ensureGuild_isSome mem.guildId st)
    have hsw : send_warning true tcid mem.id mem.guildId (ensureGuild mem.guildId st) =
        ({ guildWarnings := putEntry mem.guildId mem.id
             ⟨(ensureGuild mem.guildId st).nextId, (ensureGuild mem.guildId st).nextId + 1⟩
             (ensureGuild mem.guildId st).guildWarnings,
           cancelled := (ensureGuild mem.guildId st).cancelled,
           scheduled := (ensureGuild mem.guildId st).scheduled ++
             [(ensureGuild mem.guildId st).nextId + 1],
           nextId := (ensureGuild mem.guildId st).nextId + 2 },
         [Cmd.sendMessage tcid mem.id]) := by
      unfold send_warning
      rw [hhas0]
      simp
    have hget : getEntry (send_warning true tcid mem.id mem.guildId
        (ensureGuild mem.guildId st)).1.guildWarnings mem.guildId mem.id =
        some ⟨(ensureGuild mem.guildId st).nextId,
              (ensureGuild mem.guildId st).nextId + 1⟩ := by
      rw [hsw]
      exact getEntry_putEntry_self hpart
    have hhas1 : hasEntry (send_warning true tcid mem.id mem.guildId
        (ensureGuild mem.guildId st)).1.guildWarnings mem.guildId mem.id = true := by
      rw [hasEntry, hget]
      rfl
    have hjl : joinLeaveBlock gc.voiceChannels tcid true mem.id mem.guildId before after
        (ensureGuild mem.guildId st) =
        ((send_warning true tcid mem.id mem.guildId (ensureGuild mem.guildId st)).1,
         (if after.channelId.isSome && !after.mute then [Cmd.mute mem.id] else []) ++
           (send_warning true tcid mem.id mem.guildId (ensureGuild mem.guildId st)).2) := by
      unfold joinLeaveBlock
      rw [hA]
      simp [hav]
    have hcon : camOnBlock gc.voiceChannels mem.id mem.guildId before after
        (send_warning true tcid mem.id mem.guildId (ensureGuild mem.guildId st)).1 =
        ((send_warning true tcid mem.id mem.guildId (ensureGuild mem.guildId st)).1, []) := by
      unfold camOnBlock
      simp [hav]
    have hcoff : camOffBlock gc.voiceChannels tcid true mem.id mem.guildId before after
        (send_warning true tcid mem.id mem.guildId (ensureGuild mem.guildId st)).1 =
        ((send_warning true tcid mem.id mem.guildId (ensureGuild mem.guildId st)).1, []) := by
      unfold camOffBlock
      rw [hB, hbv, hav]
      simp only [Bool.not_false, Bool.and_self, if_true]
      exact send_warning_of_hasEntry hhas1
    have hstate : (rulesBody gc.voiceChannels tcid true mem.id mem.guildId before after
        (ensureGuild mem.guildId st)).1 =
        (send_warning true tcid mem.id mem.guildId (ensureGuild mem.guildId st)).1 := by
      unfold rulesBody
      simp only [hjl, hcon, hcoff]
    have hcmds : (rulesBody gc.voiceChannels tcid true mem.id mem.guildId before after
        (ensureGuild mem.guildId st)).2 =
        (if after.channelId.isSome && !after.mute then [Cmd.mute mem.id] else []) ++
          [Cmd.sendMessage tcid mem.id] := by
      unfold rulesBody
      simp only [hjl, hcon, hcoff]
      rw [hsw]
      simp
    constructor
    · rw [hcmds]
      cases hmc : (after.channelId.isSome && !after.mute) <;>
        simp [hmc, List.countP_cons, List.countP_append]
    · rw [hstate]
      have hle := entryCount_le_one
        (@WFstate_send_warning true tcid mem.id mem.guildId (ensureGuild mem.guildId st)
          (WFstate_ensureGuild hwf)) mem.guildId mem.id
      have hge := one_le_entryCount hget
      omega

theorem C2_enter_fires_on_after_witness :
    (Cmd.mute 2 ∈ (on_voice_state_update [(1, ⟨[7], some 5⟩)] true ⟨2, 1, false⟩
        ⟨some 7, true, false⟩ ⟨some 7, false, false⟩ ⟨[], [], [], 0⟩).2 ↔
       isMonitored [7] (some 7) = true ∧ (false : Bool) = false) ∧
    ((on_voice_state_update [(1, ⟨[7], some 5⟩)] true ⟨2, 1, false⟩
        ⟨some 7, true, false⟩ ⟨some 7, false, false⟩ ⟨[], [], [], 0⟩).2.countP
         (fun c => c = Cmd.sendMessage 5 2) = 1 ∧
     entryCount (on_voice_state_update [(1, ⟨[7], some 5⟩)] true ⟨2, 1, false⟩
        ⟨some 7, true, false⟩ ⟨some 7, false, false⟩
        ⟨[], [], [], 0⟩).1.guildWarnings 1 2 = 1) := by
  constructor
  · exact (C2_enter_fires_on_after [(1, ⟨[7], some 5⟩)] ⟨[7], some 5⟩ true ⟨2, 1, false⟩
      ⟨some 7, true, false⟩ ⟨some 7, false, false⟩ ⟨[], [], [], 0⟩ 5
      (by decide) (by decide) (by decide) (by decide)).1
  · exact (C2_enter_fires_on_after [(1, ⟨[7], some 5⟩)] ⟨[7], some 5⟩ true ⟨2, 1, false⟩
      ⟨some 7, true, false⟩ ⟨some 7, false, false⟩ ⟨[], [], [], 0⟩ 5
      (by decide) (by decide) (by decide) (by decide)).2
      (by decide) (by decide) (by decide) (by decide) (by decide) (by decide)
